import Mathlib

/-!
A shallow embedding of the graph-construction logic of the two Keras model
builders in this repository: the SE-ResNet50 builder (zoo/senet/se_resnet50.py)
and the ShuffleNet v1 builder (zoo/shufflenet/shufflenet.py).

Tensors are modelled per batch element: every layer used by the two builders
acts elementwise along the batch axis, so a rank-4 tensor of shape
(batch, h, w, c) is modelled by its per-element shape (h, w, c), and the
classifier output (batch, n) by the row length n.  Graph construction that
the tensor library rejects (shape mismatch at a merge layer, a negative
filter count, a zero group count feeding an integer division, a channel
count that a reshape cannot factor) is modelled by Option: none means
construction aborts with an error.  Python float arithmetic on the small
configuration constants appearing here (0.25 * n, and n / g + 0.5 for the
table values of this repository) is exact in IEEE double precision, so it is
modelled by exact rational arithmetic; Python int() is truncation toward
zero.  Value-level semantics (channel shuffle as an index permutation,
pointwise convolution on a pixel's channel vector, the softmax head) is
modelled where a claim is about values rather than shapes.
-/

/-- Ceiling division: the output spatial extent of a stride-s layer with
Keras "same" padding on an input extent a. -/
def ceilDiv (a s : ℕ) : ℕ := (a + s - 1) / s

/-- Python int() applied to an exact rational: truncation toward zero. -/
def pyIntQ (q : ℚ) : ℤ := q.num.tdiv q.den

/-- Shape of one batch element of a rank-4 tensor, channels-last layout. -/
structure Shape where
  h : ℕ
  w : ℕ
  c : ℕ
  deriving DecidableEq, Repr

/-- Broadcasting of one axis extent against another (numpy rules for equal
rank, as used by the Keras merge layers Add and Multiply). -/
def broadcastDim (a b : ℕ) : Option ℕ :=
  if a = b then some a else if a = 1 then some b else if b = 1 then some a else none

/-- Broadcasting of two whole shapes; none models the library's
shape-mismatch error at a merge layer. -/
def broadcastShape (a b : Shape) : Option Shape := do
  let h ← broadcastDim a.h b.h
  let w ← broadcastDim a.w b.w
  let c ← broadcastDim a.c b.c
  pure ⟨h, w, c⟩

/-- Keras layers.add / Add()([a, b]): elementwise sum, shapes broadcast. -/
def addMerge (a b : Shape) : Option Shape := broadcastShape a b

/-- Keras layers.multiply([a, b]): elementwise product, shapes broadcast. -/
def multiplyMerge (a b : Shape) : Option Shape := broadcastShape a b

/-- Conv2D with padding "valid": needs the kernel to fit inside the input
(otherwise the library raises a negative-dimension error) and a positive
stride; output channels equal the filter count. -/
def conv2dValid (filters kernel strides : ℕ) (x : Shape) : Option Shape :=
  if 0 < strides ∧ kernel ≤ x.h ∧ kernel ≤ x.w then
    some ⟨(x.h - kernel) / strides + 1, (x.w - kernel) / strides + 1, filters⟩
  else none

/-- Conv2D with padding "same": output spatial extent is the ceiling of
extent / stride, output channels equal the filter count.  Every call in the
two builders passes a positive literal stride. -/
def conv2dSame (filters kernel strides : ℕ) (x : Shape) : Shape :=
  ⟨ceilDiv x.h strides, ceilDiv x.w strides, filters⟩

/-- DepthwiseConv2D with padding "same": spatial extents as conv2dSame,
channel count unchanged. -/
def depthwiseConv2dSame (kernel strides : ℕ) (x : Shape) : Shape :=
  ⟨ceilDiv x.h strides, ceilDiv x.w strides, x.c⟩

/-- MaxPooling2D with padding "same". -/
def maxPool2dSame (pool strides : ℕ) (x : Shape) : Shape :=
  ⟨ceilDiv x.h strides, ceilDiv x.w strides, x.c⟩

/-- AveragePooling2D with padding "same". -/
def averagePooling2dSame (pool strides : ℕ) (x : Shape) : Shape :=
  ⟨ceilDiv x.h strides, ceilDiv x.w strides, x.c⟩

/-- MaxPool2D with the default padding "valid". -/
def maxPool2dValid (pool strides : ℕ) (x : Shape) : Option Shape :=
  if 0 < strides ∧ pool ≤ x.h ∧ pool ≤ x.w then
    some ⟨(x.h - pool) / strides + 1, (x.w - pool) / strides + 1, x.c⟩
  else none

/-- ZeroPadding2D with padding (p, p). -/
def zeroPadding2D (p : ℕ) (x : Shape) : Shape := ⟨x.h + 2 * p, x.w + 2 * p, x.c⟩

/-- BatchNormalization: shape preserved. -/
def batchNormalization (x : Shape) : Shape := x

/-- ReLU activation: shape preserved. -/
def reLU (x : Shape) : Shape := x

/-- GlobalAveragePooling2D: a (h, w, c) feature map becomes a length-c
vector. -/
def globalAveragePooling2D (x : Shape) : ℕ := x.c

/-- Dense layer on a rank-3 feature map (as inside the squeeze-excite
block): acts on the last axis. -/
def dense2D (units : ℕ) (x : Shape) : Shape := ⟨x.h, x.w, units⟩

/-- Dense layer on a flat vector (the classifier head): output length is the
unit count. -/
def denseVec (units len : ℕ) : ℕ := units

/-- Reshape((1, 1, target)) applied to a vector of length len: the library
rejects it unless the element counts agree. -/
def reshape1x1 (target len : ℕ) : Option Shape :=
  if len = target then some ⟨1, 1, target⟩ else none

/-- Lambda slice x[:, :, :, a:b] on the channel axis, with Python slice
clipping. -/
def sliceChannels (x : Shape) (a b : ℕ) : Shape :=
  ⟨x.h, x.w, min b x.c - min a x.c⟩

/-- Concatenate()(inputs) along the channel axis: needs a nonempty input
list and agreeing spatial extents; channel counts add. -/
def concatenate : List Shape → Option Shape
  | [] => none
  | s :: rest =>
    if rest.all (fun t => t.h == s.h && t.w == s.w) then
      some ⟨s.h, s.w, s.c + (rest.map Shape.c).sum⟩
    else none

/-! Value-level semantics of the classifier head shared by the two builders:
GlobalAveragePooling2D followed by Dense(n_classes, activation softmax).
The exponential of the softmax is a parameter e, constrained to be positive
where a theorem needs it, so that the development stays independent of any
particular model of the floating-point exp. -/

/-- Dot product of two equally long rational vectors. -/
def dotQ (a b : List ℚ) : ℚ := (List.zipWith (fun p q => p * q) a b).sum

/-- Softmax with exponential function e: each entry is its exponential
divided by the sum of all exponentials. -/
def softmax (e : ℚ → ℚ) (v : List ℚ) : List ℚ :=
  v.map fun z => e z / (v.map e).sum

/-- Dense layer value semantics: one output per weight row, bias added. -/
def denseLayerV (w : List (List ℚ)) (b : List ℚ) (v : List ℚ) : List ℚ :=
  List.zipWith (fun row bi => dotQ row v + bi) w b

/-- GlobalAveragePooling2D value semantics: the input is the list of
per-channel spatial value lists; each channel becomes its mean. -/
def globalAvgPoolV (fm : List (List ℚ)) : List ℚ :=
  fm.map fun ch => ch.sum / (ch.length : ℚ)

/-- Value semantics of the classifier group of both builders: global average
pooling, then a dense layer, then softmax. -/
def classifierV (e : ℚ → ℚ) (w : List (List ℚ)) (b : List ℚ)
    (fm : List (List ℚ)) : List ℚ :=
  softmax e (denseLayerV w b (globalAvgPoolV fm))

namespace SeResNet50

/-- Construction events recorded while building the SE-ResNet50 graph: each
squeeze-excite call with its input channel count, and the block kind at each
block call. -/
inductive Op where
  | se (inC : ℕ)
  | projBlock
  | bottleBlock
  deriving DecidableEq, Repr

/-- Stem convolutional group, lines 22-37 of se_resnet50.py: zero pad 3,
7x7/2 valid convolution to 64 filters, BN, ReLU, zero pad 1, 3x3/2 max
pool. -/
def stem (x : Shape) : Option Shape := do
  let x2 ← conv2dValid 64 7 2 (zeroPadding2D 3 x)
  maxPool2dValid 3 2 (zeroPadding2D 1 (reLU (batchNormalization x2)))

/-- Squeeze path of squeeze_excite_block, lines 48-58: the input channel
count, global average pooling, Reshape((1, 1, filters)), and the first
Dense layer with filters // ratio units (Python floor division; a zero
ratio raises ZeroDivisionError, modelled by none). -/
def se_reduce (x : Shape) (ratio : ℕ) : Option Shape :=
  if ratio = 0 then none
  else do
    let y ← reshape1x1 x.c (globalAveragePooling2D x)
    pure (dense2D (x.c / ratio) y)

/-- Squeeze and excite block, lines 39-66: squeeze to filters // ratio
channels, excite back to filters channels, multiply the gate into the
shortcut (with broadcasting from (1, 1, c)).  Records its input channel
count. -/
def squeeze_excite_block (x : Shape) (ratio : ℕ) : Option (Shape × List Op) := do
  let r ← se_reduce x ratio
  let out ← multiplyMerge x (dense2D x.c r)
  pure (out, [Op.se x.c])

/-- Bottleneck residual block with identity link, lines 68-99: 1x1 valid
conv (n_filters), 3x3 same conv (n_filters), 1x1 valid conv (4 n_filters),
each with BN, squeeze-excite, then add the unmodified input. -/
def bottleneck_block (n_filters : ℕ) (x : Shape) (ratio : ℕ) :
    Option (Shape × List Op) := do
  let y1 ← conv2dValid n_filters 1 1 x
  let y4 ← conv2dValid (n_filters * 4) 1 1
    (reLU (batchNormalization (conv2dSame n_filters 3 1 (reLU (batchNormalization y1)))))
  let (y6, t) ← squeeze_excite_block (batchNormalization y4) ratio
  let out ← addMerge x y6
  pure (reLU out, Op.bottleBlock :: t)

/-- Bottleneck residual block with projection shortcut, lines 101-137: the
shortcut is a strided 1x1 valid conv to 4 n_filters channels; the main path
mirrors the bottleneck block with the first conv strided. -/
def projection_block (n_filters : ℕ) (x : Shape) (strides ratio : ℕ) :
    Option (Shape × List Op) := do
  let s1 ← conv2dValid (4 * n_filters) 1 strides x
  let y1 ← conv2dValid n_filters 1 strides x
  let y4 ← conv2dValid (4 * n_filters) 1 1
    (reLU (batchNormalization (conv2dSame n_filters 3 1 (reLU (batchNormalization y1)))))
  let (y6, t) ← squeeze_excite_block (batchNormalization y4) ratio
  let out ← addMerge y6 (batchNormalization s1)
  pure (reLU out, Op.projBlock :: t)

/-- Classifier group, lines 139-149: global average pooling then
Dense(n_classes, softmax); shape level, the row length. -/
def classifier (x : Shape) (n_classes : ℕ) : ℕ :=
  denseVec n_classes (globalAveragePooling2D x)

/-- The "for _ in range(n)" loops of lines 165-190: n identity bottleneck
blocks applied in sequence. -/
def se_bottlenecks : ℕ → ℕ → ℕ → Shape → Option (Shape × List Op)
  | 0, _, _, x => some (x, [])
  | n + 1, n_filters, ratio, x => do
    let (y, t) ← bottleneck_block n_filters x ratio
    let (z, ts) ← se_bottlenecks n n_filters ratio y
    pure (z, t ++ ts)

/-- The per-stage assembly pattern of the module-level code, lines 160-190:
one projection block followed by n_blocks - 1 bottleneck blocks. -/
def se_stage (n_filters n_blocks strides ratio : ℕ) (x : Shape) :
    Option (Shape × List Op) := do
  let (y, t) ← projection_block n_filters x strides ratio
  let (z, ts) ← se_bottlenecks (n_blocks - 1) n_filters ratio y
  pure (z, t ++ ts)

/-- Module-level constant, line 152. -/
def ratio : ℕ := 16

/-- Module-level assembly, lines 154-196: stem on the (224, 224, 3) input,
the four residual stages with 64/128/256/512 filters and 3/4/6/3 blocks
(first stage unstrided), then the 1000-class classifier.  The result is the
classifier row length together with the recorded construction events. -/
def se_resnet50_out : Option (ℕ × List Op) := do
  let x0 ← stem ⟨224, 224, 3⟩
  let (x1, t1) ← se_stage 64 3 1 ratio x0
  let (x2, t2) ← se_stage 128 4 2 ratio x1
  let (x3, t3) ← se_stage 256 6 2 ratio x2
  let (x4, t4) ← se_stage 512 3 2 ratio x3
  pure (classifier x4 1000, t1 ++ t2 ++ t3 ++ t4)

/-- Block-kind events among the construction events. -/
def isBlock : Op → Bool
  | Op.projBlock => true
  | Op.bottleBlock => true
  | _ => false

/-- Input channel counts of the recorded squeeze-excite calls. -/
def seChannels (t : List Op) : List ℕ :=
  t.filterMap fun op => match op with
    | Op.se c => some c
    | _ => none

/-- Trace of a finished build, empty if construction failed. -/
def traceOf (r : Option (ℕ × List Op)) : List Op := (r.map Prod.snd).getD []

end SeResNet50

namespace ShuffleNet

/-- Construction events recorded while building the ShuffleNet graph: each
pointwise group convolution with its input channel count, group count and
requested filter count; each channel shuffle with its input channel count
and group count; and the block kind at each block call. -/
inductive Op where
  | pwConv (inC n_groups n_filters : ℕ)
  | shuffle (inC n_groups : ℕ)
  | stridedBlock
  | regularBlock
  deriving DecidableEq, Repr

/-- Stem convolution group, lines 24-32 of shufflenet.py: 3x3/2 same conv to
24 filters, BN, ReLU, 3x3/2 same max pool. -/
def stem (x : Shape) : Shape :=
  maxPool2dSame 3 2 (reLU (batchNormalization (conv2dSame 24 3 2 x)))

/-- Classifier group, lines 34-43: global average pooling then
Dense(n_classes, softmax); shape level, the row length. -/
def classifier (x : Shape) (n_classes : ℕ) : ℕ :=
  denseVec n_classes (globalAveragePooling2D x)

/-- Per-group output filter count of pw_group_conv, line 141:
int(n_filters / n_groups + 0.5), with the float arithmetic exact for the
values of this repository. -/
def grp_out_filters (n_filters n_groups : ℕ) : ℕ :=
  (pyIntQ ((n_filters : ℚ) / (n_groups : ℚ) + 1 / 2)).toNat

/-- Pointwise group convolution, lines 126-155: the channel axis is cut into
n_groups slices of in_filters // n_groups channels, each slice gets its own
1x1 convolution with grp_out_filters output channels, the group outputs are
concatenated and batch normalized.  A zero group count hits the integer
division (ZeroDivisionError) and an empty Concatenate, modelled by none.
Records the invocation. -/
def pw_group_conv (x : Shape) (n_groups n_filters : ℕ) :
    Option (Shape × List Op) :=
  if n_groups = 0 then none
  else do
    let y ← concatenate ((List.range n_groups).map fun i =>
      conv2dSame (grp_out_filters n_filters n_groups) 1 1
        (sliceChannels x (x.c / n_groups * i) (x.c / n_groups * (i + 1))))
    pure (batchNormalization y, [Op.pwConv x.c n_groups n_filters])

/-- Channel shuffle layer, lines 157-174, shape level: reshape the channel
axis to (n_groups, grp_in), transpose, reshape back.  The final reshape back
to n_filters channels is only valid when n_groups * grp_in recovers the
channel count, i.e. when the group count divides it; otherwise the element
counts disagree and the reshape fails.  Shape is preserved.  Records the
invocation. -/
def channel_shuffle (x : Shape) (n_groups : ℕ) : Option (Shape × List Op) :=
  if n_groups = 0 then none
  else if n_groups * (x.c / n_groups) = x.c then some (x, [Op.shuffle x.c n_groups])
  else none

/-- Strided shuffle block, lines 62-95: average-pool shortcut, entry filter
count reduced by the input channel count (a negative Conv2D filter count
would be rejected by the library, modelled by none), pointwise group
convolution with dimensionality reduction, channel shuffle, strided 3x3
depthwise convolution, pointwise group convolution restoring the adjusted
filter count, concatenation with the shortcut. -/
def strided_shuffle_block (x : Shape) (n_groups n_filters : ℕ)
    (reduction : ℚ) : Option (Shape × List Op) :=
  if x.c ≤ n_filters then
    if pyIntQ (reduction * ((n_filters - x.c : ℕ) : ℚ)) < 0 then none
    else do
      let (y1, t1) ← pw_group_conv x n_groups
        (pyIntQ (reduction * ((n_filters - x.c : ℕ) : ℚ))).toNat
      let (y2, t2) ← channel_shuffle (reLU y1) n_groups
      let (y3, t3) ← pw_group_conv
        (batchNormalization (depthwiseConv2dSame 3 2 y2)) n_groups (n_filters - x.c)
      let out ← concatenate [averagePooling2dSame 3 2 x, y3]
      pure (reLU out, Op.stridedBlock :: (t1 ++ t2 ++ t3))
  else none

/-- Regular shuffle block, lines 97-124: identity shortcut, pointwise group
convolution with dimensionality reduction, channel shuffle, 3x3 depthwise
convolution, pointwise group convolution restoring n_filters, additive
merge with the shortcut. -/
def shuffle_block (x : Shape) (n_groups n_filters : ℕ) (reduction : ℚ) :
    Option (Shape × List Op) :=
  if pyIntQ (reduction * (n_filters : ℚ)) < 0 then none
  else do
    let (y1, t1) ← pw_group_conv x n_groups (pyIntQ (reduction * (n_filters : ℚ))).toNat
    let (y2, t2) ← channel_shuffle (reLU y1) n_groups
    let (y3, t3) ← pw_group_conv
      (batchNormalization (depthwiseConv2dSame 3 1 y2)) n_groups n_filters
    let out ← addMerge x y3
    pure (reLU out, Op.regularBlock :: (t1 ++ t2 ++ t3))

/-- The "for _ in range(n_blocks - 1)" loop of shuffle_group, lines 58-59:
n regular shuffle blocks in sequence. -/
def shuffle_blocks_iter : ℕ → ℕ → ℕ → ℚ → Shape → Option (Shape × List Op)
  | 0, _, _, _, x => some (x, [])
  | n + 1, n_groups, n_filters, reduction, x => do
    let (y, t) ← shuffle_block x n_groups n_filters reduction
    let (z, ts) ← shuffle_blocks_iter n n_groups n_filters reduction y
    pure (z, t ++ ts)

/-- Shuffle group (stage assembler), lines 45-60: one strided shuffle block
followed by n_blocks - 1 regular shuffle blocks. -/
def shuffle_group (x : Shape) (n_groups n_blocks n_filters : ℕ)
    (reduction : ℚ) : Option (Shape × List Op) := do
  let (y, t) ← strided_shuffle_block x n_groups n_filters reduction
  let (z, ts) ← shuffle_blocks_iter (n_blocks - 1) n_groups n_filters reduction y
  pure (z, t ++ ts)

/-- Module-level group count, line 177. -/
def n_groups : ℕ := 2

/-- Module-level filter table, lines 181-187: group-count variant to
per-stage filter counts; a missing key is a Python KeyError. -/
def filters : ℕ → Option (List ℕ)
  | 1 => some [24, 144, 288, 576]
  | 2 => some [24, 200, 400, 800]
  | 3 => some [24, 240, 480, 960]
  | 4 => some [24, 272, 544, 1088]
  | 8 => some [24, 384, 768, 1536]
  | _ => none

/-- Module-level reduction factor, line 190 (0.25). -/
def reduction : ℚ := 1 / 4

/-- Module-level per-stage block counts, line 193. -/
def blocks : List ℕ := [4, 8, 4]

/-- One iteration of the module-level "for i in range(3)" loop, lines
201-202: look up the block count and stage filter target and run the
shuffle group. -/
def shuffle_stage (i : ℕ) (acc : Shape × List Op) : Option (Shape × List Op) := do
  let nb ← blocks[i]?
  let tbl ← filters n_groups
  let nf ← tbl[i + 1]?
  let (y, t) ← shuffle_group acc.1 n_groups nb nf reduction
  pure (y, acc.2 ++ t)

/-- Module-level assembly, lines 195-208: stem on the (224, 224, 3) input,
the three shuffle groups, then the 1000-class classifier.  The result is
the classifier row length together with the recorded construction
events. -/
def shufflenet_out : Option (ℕ × List Op) := do
  let a1 ← shuffle_stage 0 (stem ⟨224, 224, 3⟩, [])
  let a2 ← shuffle_stage 1 a1
  let a3 ← shuffle_stage 2 a2
  pure (classifier a3.1 1000, a3.2)

/-- Block-kind events among the construction events. -/
def isBlock : Op → Bool
  | Op.stridedBlock => true
  | Op.regularBlock => true
  | _ => false

/-- Trace of a finished build, empty if construction failed. -/
def traceOf (r : Option (ℕ × List Op)) : List Op := (r.map Prod.snd).getD []

/-! Value-level semantics of the channel shuffle, lines 157-174.  Only the
channel axis is permuted, identically at every pixel of every batch
element, so a tensor is modelled by the map from channel index to value.
K.reshape views the channel vector row-major as an (n_groups, grp_in)
matrix, K.permute_dimensions swaps the two axes, and the final K.reshape
flattens the (grp_in, n_groups) matrix back row-major. -/

/-- Row-major view of a flat vector as a matrix with rows of length
rowLen. -/
def kReshape {α : Type} (rowLen : ℕ) (v : ℕ → α) : ℕ → ℕ → α :=
  fun g j => v (g * rowLen + j)

/-- Transposition of the two trailing axes (K.permute_dimensions
(0, 1, 2, 4, 3)). -/
def kPermute {α : Type} (m : ℕ → ℕ → α) : ℕ → ℕ → α := fun j g => m g j

/-- Row-major flattening of a matrix whose rows have length rowLen. -/
def kFlatten {α : Type} (rowLen : ℕ) (m : ℕ → ℕ → α) : ℕ → α :=
  fun i => m (i / rowLen) (i % rowLen)

/-- Channel shuffle, value level: reshape to (n_groups, grp_in), transpose,
flatten back.  After the transpose the rows have length n_groups. -/
def channel_shuffleV {α : Type} (v : ℕ → α) (n_filters n_groups : ℕ) : ℕ → α :=
  kFlatten n_groups (kPermute (kReshape (n_filters / n_groups) v))

/-- Explicit index permutation named by the specification: output channel
j * n_groups + g reads input channel g * grp_in + j, i.e. output position i
reads input position (i % n_groups) * grp_in + i / n_groups. -/
def specShufflePerm (n_groups grp_in : ℕ) : ℕ → ℕ :=
  fun i => (i % n_groups) * grp_in + i / n_groups

/-! Value-level semantics of pw_group_conv on a single pixel's channel
vector (a 1x1 convolution acts pixelwise), given the per-group weight
matrices and the batch-normalization map. -/

/-- Python slice v[a:b] with clipping. -/
def sliceV (v : List ℚ) (a b : ℕ) : List ℚ := (v.take b).drop a

/-- Value semantics of Conv2D(units, (1, 1), use_bias=False) on one pixel:
one dot product per weight row. -/
def conv1x1V (w : List (List ℚ)) (v : List ℚ) : List ℚ :=
  w.map fun row => dotQ row v

/-- Value semantics of pw_group_conv on one pixel: slice the channel vector
into n_groups blocks of length in_filters // n_groups, convolve each with
its own weight matrix, concatenate, batch normalize. -/
def pw_group_convV (v : List ℚ) (n_groups : ℕ) (ws : List (List (List ℚ)))
    (bn : List ℚ → List ℚ) : List ℚ :=
  bn (((List.range n_groups).map fun i =>
    conv1x1V (ws.getD i []) (sliceV v (v.length / n_groups * i)
      (v.length / n_groups * (i + 1)))).flatten)

/-- The specification's ordinary dense pointwise convolution followed by
batch normalization, against which pw_group_conv with one group is
compared. -/
def densePwConvV (v : List ℚ) (w : List (List ℚ))
    (bn : List ℚ → List ℚ) : List ℚ := bn (conv1x1V w v)

end ShuffleNet

/-! Arithmetic bridging lemmas: Python int() on the exact rationals used by
the builders, restated over ℕ. -/

lemma tdiv_natCast_of_nonneg (m : ℤ) (n : ℕ) (h : 0 ≤ m) : m.tdiv n = m / n := by
  obtain ⟨a, rfl⟩ := Int.eq_ofNat_of_zero_le h
  rfl

lemma pyIntQ_eq_floor (q : ℚ) (h : 0 ≤ q) : pyIntQ q = ⌊q⌋ := by
  rw [Rat.floor_def, pyIntQ, tdiv_natCast_of_nonneg]
  exact Rat.num_nonneg.2 h

lemma pyIntQ_nonneg (q : ℚ) (h : 0 ≤ q) : 0 ≤ pyIntQ q := by
  rw [pyIntQ_eq_floor q h]
  exact Int.floor_nonneg.2 h

lemma pyIntQ_div_add_half (a b : ℕ) (hb : 0 < b) :
    pyIntQ ((a : ℚ) / (b : ℚ) + 1 / 2) = ((2 * a + b) / (2 * b) : ℕ) := by
  have hb' : ((b : ℚ)) ≠ 0 := by positivity
  have h1 : ((a : ℚ) / (b : ℚ) + 1 / 2) = (((2 * a + b : ℕ) : ℚ)) / (((2 * b : ℕ) : ℚ)) := by
    push_cast
    field_simp
    ring
  have hq : (0 : ℚ) ≤ (a : ℚ) / (b : ℚ) + 1 / 2 := by positivity
  rw [pyIntQ_eq_floor _ hq, h1, Rat.floor_natCast_div_natCast]
  exact (Int.ofNat_div _ _).symm

lemma pyIntQ_quarter (a : ℕ) : pyIntQ ((1 / 4 : ℚ) * (a : ℚ)) = ((a / 4 : ℕ) : ℤ) := by
  have h1 : ((1 / 4 : ℚ) * (a : ℚ)) = ((a : ℕ) : ℚ) / (((4 : ℕ)) : ℚ) := by
    push_cast
    ring
  have hq : (0 : ℚ) ≤ (1 / 4 : ℚ) * (a : ℚ) := by positivity
  rw [pyIntQ_eq_floor _ hq, h1, Rat.floor_natCast_div_natCast]
  exact (Int.ofNat_div _ _).symm

lemma ceilDiv_by_one (a : ℕ) : ceilDiv a 1 = a := by
  simp [ceilDiv]

/-! Shape-level facts about the shared layer primitives. -/

lemma broadcastDim_self (a : ℕ) : broadcastDim a a = some a := by
  simp [broadcastDim]

lemma broadcastDim_one_right (a : ℕ) : broadcastDim a 1 = some a := by
  rcases eq_or_ne a 1 with rfl | h
  · simp [broadcastDim]
  · simp [broadcastDim, h]

lemma broadcastShape_self (s : Shape) : broadcastShape s s = some s := by
  simp [broadcastShape, broadcastDim_self]

lemma broadcastShape_gate (s : Shape) : broadcastShape s ⟨1, 1, s.c⟩ = some s := by
  simp [broadcastShape, broadcastDim_self, broadcastDim_one_right]

lemma concatenate_replicate (n : ℕ) (s : Shape) (hn : 0 < n) :
    concatenate (List.replicate n s) = some ⟨s.h, s.w, n * s.c⟩ := by
  obtain ⟨m, rfl⟩ := Nat.exists_eq_succ_of_ne_zero hn.ne'
  rw [List.replicate_succ, concatenate]
  have hall : (List.replicate m s).all (fun t => t.h == s.h && t.w == s.w) = true := by
    rw [List.all_eq_true]
    intro t ht
    rw [List.eq_of_mem_replicate ht]
    simp
  rw [if_pos hall]
  congr 2
  rw [List.map_replicate, List.sum_replicate, smul_eq_mul, Nat.succ_mul]
  exact Nat.add_comm _ _

lemma concatenate_pair (a b : Shape) (hh : b.h = a.h) (hw : b.w = a.w) :
    concatenate [a, b] = some ⟨a.h, a.w, a.c + b.c⟩ := by
  rw [concatenate]
  have hall : ([b]).all (fun t => t.h == a.h && t.w == a.w) = true := by
    simp [hh, hw]
  rw [if_pos hall]
  simp

lemma conv2dValid_one (f : ℕ) (x : Shape) (hh : 1 ≤ x.h) (hw : 1 ≤ x.w) :
    conv2dValid f 1 1 x = some ⟨x.h, x.w, f⟩ := by
  rw [conv2dValid, if_pos ⟨one_pos, hh, hw⟩]
  congr 2 <;> omega

lemma conv2dValid_strided (f s : ℕ) (x : Shape) (hs : 0 < s) (hh : 1 ≤ x.h) (hw : 1 ≤ x.w) :
    conv2dValid f 1 s x = some ⟨(x.h - 1) / s + 1, (x.w - 1) / s + 1, f⟩ := by
  rw [conv2dValid, if_pos ⟨hs, hh, hw⟩]

lemma conv2dSame_one (f k : ℕ) (x : Shape) : conv2dSame f k 1 x = ⟨x.h, x.w, f⟩ := by
  simp [conv2dSame, ceilDiv_by_one]

lemma softmax_sum (e : ℚ → ℚ) (v : List ℚ) (he : ∀ z, 0 < e z) (hv : v ≠ []) :
    (softmax e v).sum = 1 := by
  have hm : v.map e ≠ [] := by
    simpa using hv
  have hS : 0 < (v.map e).sum := by
    refine List.sum_pos _ ?_ hm
    intro x hx
    obtain ⟨z, _, rfl⟩ := List.mem_map.1 hx
    exact he z
  unfold softmax
  simp only [div_eq_mul_inv]
  rw [List.sum_map_mul_right]
  exact mul_inv_cancel₀ hS.ne'

/-- Filtering the flattened repetition of a fixed event list keeps one
designated entry per repetition. -/
lemma filter_join_replicate {β : Type} (p : β → Bool) (n : ℕ) (t : List β) (b : β)
    (h : t.filter p = [b]) :
    (List.flatten (List.replicate n t)).filter p = List.replicate n b := by
  induction n with
  | zero => rfl
  | succ m ih =>
    rw [List.replicate_succ, List.flatten_cons, List.filter_append, h, ih,
      List.replicate_succ]
    rfl

namespace SeResNet50

lemma se_reduce_eq (x : Shape) (r : ℕ) (hr : r ≠ 0) :
    se_reduce x r = some ⟨1, 1, x.c / r⟩ := by
  simp [se_reduce, hr, reshape1x1, globalAveragePooling2D, dense2D]

lemma squeeze_excite_block_eq (x : Shape) (r : ℕ) (hr : r ≠ 0) :
    squeeze_excite_block x r = some (x, [Op.se x.c]) := by
  have hm : multiplyMerge x (dense2D x.c ⟨1, 1, x.c / r⟩) = some x :=
    broadcastShape_gate x
  rw [squeeze_excite_block, se_reduce_eq x r hr]
  simp only [Option.bind_eq_bind, Option.some_bind', hm, Option.pure_def]

lemma bottleneck_block_eq (nf : ℕ) (x : Shape) (r : ℕ) (hr : r ≠ 0)
    (hh : 1 ≤ x.h) (hw : 1 ≤ x.w) (hcx : x.c = nf * 4) :
    bottleneck_block nf x r = some (x, [Op.bottleBlock, Op.se (nf * 4)]) := by
  have h1 : conv2dValid nf 1 1 x = some ⟨x.h, x.w, nf⟩ := conv2dValid_one nf x hh hw
  have hsame : conv2dSame nf 3 1 (⟨x.h, x.w, nf⟩ : Shape) = ⟨x.h, x.w, nf⟩ :=
    conv2dSame_one nf 3 ⟨x.h, x.w, nf⟩
  have h4 : conv2dValid (nf * 4) 1 1 (⟨x.h, x.w, nf⟩ : Shape) = some ⟨x.h, x.w, nf * 4⟩ :=
    conv2dValid_one (nf * 4) ⟨x.h, x.w, nf⟩ hh hw
  have hse : squeeze_excite_block ⟨x.h, x.w, nf * 4⟩ r =
      some (⟨x.h, x.w, nf * 4⟩, [Op.se (nf * 4)]) :=
    squeeze_excite_block_eq ⟨x.h, x.w, nf * 4⟩ r hr
  have hadd : addMerge x ⟨x.h, x.w, nf * 4⟩ = some x := by
    rw [← hcx]
    exact broadcastShape_self x
  simp only [bottleneck_block, Option.bind_eq_bind, Option.some_bind', Option.pure_def,
    reLU, batchNormalization, h1, hsame, h4, hse, hadd]

lemma projection_block_eq (nf : ℕ) (x : Shape) (s r : ℕ) (hs : 0 < s) (hr : r ≠ 0)
    (hh : 1 ≤ x.h) (hw : 1 ≤ x.w) :
    projection_block nf x s r =
      some (⟨(x.h - 1) / s + 1, (x.w - 1) / s + 1, 4 * nf⟩,
        [Op.projBlock, Op.se (4 * nf)]) := by
  have hsc : conv2dValid (4 * nf) 1 s x =
      some ⟨(x.h - 1) / s + 1, (x.w - 1) / s + 1, 4 * nf⟩ :=
    conv2dValid_strided (4 * nf) s x hs hh hw
  have h1 : conv2dValid nf 1 s x =
      some ⟨(x.h - 1) / s + 1, (x.w - 1) / s + 1, nf⟩ :=
    conv2dValid_strided nf s x hs hh hw
  have hsame : conv2dSame nf 3 1 (⟨(x.h - 1) / s + 1, (x.w - 1) / s + 1, nf⟩ : Shape) =
      ⟨(x.h - 1) / s + 1, (x.w - 1) / s + 1, nf⟩ :=
    conv2dSame_one nf 3 ⟨(x.h - 1) / s + 1, (x.w - 1) / s + 1, nf⟩
  have h4 : conv2dValid (4 * nf) 1 1 (⟨(x.h - 1) / s + 1, (x.w - 1) / s + 1, nf⟩ : Shape) =
      some ⟨(x.h - 1) / s + 1, (x.w - 1) / s + 1, 4 * nf⟩ :=
    conv2dValid_one (4 * nf) ⟨(x.h - 1) / s + 1, (x.w - 1) / s + 1, nf⟩
      (Nat.le_add_left 1 _) (Nat.le_add_left 1 _)
  have hse : squeeze_excite_block ⟨(x.h - 1) / s + 1, (x.w - 1) / s + 1, 4 * nf⟩ r =
      some (⟨(x.h - 1) / s + 1, (x.w - 1) / s + 1, 4 * nf⟩, [Op.se (4 * nf)]) :=
    squeeze_excite_block_eq ⟨(x.h - 1) / s + 1, (x.w - 1) / s + 1, 4 * nf⟩ r hr
  have hadd : addMerge (⟨(x.h - 1) / s + 1, (x.w - 1) / s + 1, 4 * nf⟩ : Shape)
      ⟨(x.h - 1) / s + 1, (x.w - 1) / s + 1, 4 * nf⟩ =
      some ⟨(x.h - 1) / s + 1, (x.w - 1) / s + 1, 4 * nf⟩ :=
    broadcastShape_self _
  simp only [projection_block, Option.bind_eq_bind, Option.some_bind', Option.pure_def,
    reLU, batchNormalization, hsc, h1, hsame, h4, hse, hadd]

lemma se_bottlenecks_eq (n nf r : ℕ) (x : Shape) (hr : r ≠ 0) (hh : 1 ≤ x.h)
    (hw : 1 ≤ x.w) (hcx : x.c = nf * 4) :
    se_bottlenecks n nf r x =
      some (x, List.flatten (List.replicate n [Op.bottleBlock, Op.se (nf * 4)])) := by
  induction n with
  | zero => rfl
  | succ m ih =>
    simp only [se_bottlenecks, bottleneck_block_eq nf x r hr hh hw hcx,
      Option.bind_eq_bind, Option.some_bind', ih, Option.pure_def,
      List.replicate_succ, List.flatten_cons]

lemma se_stage_eq (nf nb s r : ℕ) (x : Shape) (hs : 0 < s) (hr : r ≠ 0)
    (hh : 1 ≤ x.h) (hw : 1 ≤ x.w) :
    se_stage nf nb s r x =
      some (⟨(x.h - 1) / s + 1, (x.w - 1) / s + 1, 4 * nf⟩,
        Op.projBlock :: Op.se (4 * nf) ::
          List.flatten (List.replicate (nb - 1) [Op.bottleBlock, Op.se (nf * 4)])) := by
  rw [se_stage, projection_block_eq nf x s r hs hr hh hw]
  simp only [Option.bind_eq_bind, Option.some_bind']
  rw [se_bottlenecks_eq (nb - 1) nf r ⟨(x.h - 1) / s + 1, (x.w - 1) / s + 1, 4 * nf⟩ hr
    (Nat.le_add_left 1 _) (Nat.le_add_left 1 _) (Nat.mul_comm 4 nf)]
  simp only [Option.some_bind', Option.pure_def]
  rfl

end SeResNet50

namespace ShuffleNet

lemma grp_out_filters_eq (nf ng : ℕ) :
    grp_out_filters nf ng = (2 * nf + ng) / (2 * ng) := by
  rcases Nat.eq_zero_or_pos ng with rfl | hg
  · have h1 : ((nf : ℚ) / (((0 : ℕ)) : ℚ) + 1 / 2) = (((1 : ℕ)) : ℚ) / (((2 : ℕ)) : ℚ) := by
      push_cast
      norm_num
    rw [grp_out_filters, h1, pyIntQ_eq_floor _ (by positivity),
      Rat.floor_natCast_div_natCast]
    simp
  · rw [grp_out_filters, pyIntQ_div_add_half nf ng hg, Int.toNat_natCast]

lemma grp_out_mul_of_dvd (nf ng : ℕ) (hg : 0 < ng) (hd : ng ∣ nf) :
    ng * grp_out_filters nf ng = nf := by
  obtain ⟨q, rfl⟩ := hd
  rw [grp_out_filters_eq]
  have h2 : 2 * (ng * q) + ng = ng * (2 * q + 1) := by ring
  have h3 : 2 * ng = ng * 2 := by ring
  have h4 : (2 * q + 1) / 2 = q := by omega
  rw [h2, h3, Nat.mul_div_mul_left _ _ hg, h4]

lemma pyIntQ_reduction_mul (n : ℕ) :
    pyIntQ (reduction * (n : ℚ)) = ((n / 4 : ℕ) : ℤ) :=
  pyIntQ_quarter n

lemma reduction_nonneg : (0 : ℚ) ≤ reduction := by
  rw [reduction]
  norm_num

lemma pw_group_conv_eq (x : Shape) (ng nf : ℕ) (hg : 0 < ng) :
    pw_group_conv x ng nf =
      some (⟨x.h, x.w, ng * grp_out_filters nf ng⟩, [Op.pwConv x.c ng nf]) := by
  have hmap : ((List.range ng).map fun i =>
      conv2dSame (grp_out_filters nf ng) 1 1
        (sliceChannels x (x.c / ng * i) (x.c / ng * (i + 1)))) =
      List.replicate ng (⟨x.h, x.w, grp_out_filters nf ng⟩ : Shape) := by
    rw [List.eq_replicate_iff]
    constructor
    · simp
    · intro b hb
      obtain ⟨i, hi, rfl⟩ := List.mem_map.1 hb
      simp [conv2dSame, sliceChannels, ceilDiv_by_one]
  rw [pw_group_conv, if_neg hg.ne', hmap, concatenate_replicate ng _ hg]
  rfl

lemma channel_shuffle_eq (x : Shape) (ng : ℕ) (hg : 0 < ng) (hd : ng ∣ x.c) :
    channel_shuffle x ng = some (x, [Op.shuffle x.c ng]) := by
  rw [channel_shuffle, if_neg hg.ne', if_pos (Nat.mul_div_cancel' hd)]

lemma strided_shuffle_block_eq (x : Shape) (ng nf : ℕ) (red : ℚ) (hg : 0 < ng)
    (hc : x.c ≤ nf) (hred : 0 ≤ red) (hd : ng ∣ (nf - x.c)) :
    strided_shuffle_block x ng nf red =
      some (⟨ceilDiv x.h 2, ceilDiv x.w 2, nf⟩,
        [Op.stridedBlock,
         Op.pwConv x.c ng (pyIntQ (red * ((nf - x.c : ℕ) : ℚ))).toNat,
         Op.shuffle (ng * grp_out_filters (pyIntQ (red * ((nf - x.c : ℕ) : ℚ))).toNat ng) ng,
         Op.pwConv (ng * grp_out_filters (pyIntQ (red * ((nf - x.c : ℕ) : ℚ))).toNat ng) ng
           (nf - x.c)]) := by
  have hrf : ¬ pyIntQ (red * ((nf - x.c : ℕ) : ℚ)) < 0 :=
    not_lt.2 (pyIntQ_nonneg _ (mul_nonneg hred (Nat.cast_nonneg _)))
  have h1 : pw_group_conv x ng (pyIntQ (red * ((nf - x.c : ℕ) : ℚ))).toNat =
      some (⟨x.h, x.w,
        ng * grp_out_filters (pyIntQ (red * ((nf - x.c : ℕ) : ℚ))).toNat ng⟩,
       [Op.pwConv x.c ng (pyIntQ (red * ((nf - x.c : ℕ) : ℚ))).toNat]) :=
    pw_group_conv_eq x ng _ hg
  have h2 : channel_shuffle (reLU ⟨x.h, x.w,
        ng * grp_out_filters (pyIntQ (red * ((nf - x.c : ℕ) : ℚ))).toNat ng⟩) ng =
      some (⟨x.h, x.w,
        ng * grp_out_filters (pyIntQ (red * ((nf - x.c : ℕ) : ℚ))).toNat ng⟩,
       [Op.shuffle (ng * grp_out_filters (pyIntQ (red * ((nf - x.c : ℕ) : ℚ))).toNat ng) ng]) :=
    channel_shuffle_eq _ ng hg ⟨_, rfl⟩
  have h3 : pw_group_conv (batchNormalization (depthwiseConv2dSame 3 2
        (⟨x.h, x.w, ng * grp_out_filters (pyIntQ (red * ((nf - x.c : ℕ) : ℚ))).toNat ng⟩ : Shape)))
        ng (nf - x.c) =
      some (⟨ceilDiv x.h 2, ceilDiv x.w 2, nf - x.c⟩,
       [Op.pwConv (ng * grp_out_filters (pyIntQ (red * ((nf - x.c : ℕ) : ℚ))).toNat ng) ng
         (nf - x.c)]) := by
    have h := pw_group_conv_eq (⟨ceilDiv x.h 2, ceilDiv x.w 2,
      ng * grp_out_filters (pyIntQ (red * ((nf - x.c : ℕ) : ℚ))).toNat ng⟩ : Shape)
      ng (nf - x.c) hg
    rw [grp_out_mul_of_dvd _ _ hg hd] at h
    exact h
  have h4 : concatenate [averagePooling2dSame 3 2 x,
      (⟨ceilDiv x.h 2, ceilDiv x.w 2, nf - x.c⟩ : Shape)] =
      some ⟨ceilDiv x.h 2, ceilDiv x.w 2, nf⟩ := by
    have h := concatenate_pair (averagePooling2dSame 3 2 x)
      ⟨ceilDiv x.h 2, ceilDiv x.w 2, nf - x.c⟩ rfl rfl
    rw [h]
    have hsum : x.c + (nf - x.c) = nf := by omega
    simp only [averagePooling2dSame]
    rw [hsum]
  rw [strided_shuffle_block, if_pos hc, if_neg hrf]
  simp only [Option.bind_eq_bind, Option.some_bind', Option.pure_def, h1, h2, h3, h4]
  rfl

lemma shuffle_block_eq (x : Shape) (ng nf : ℕ) (red : ℚ) (hg : 0 < ng)
    (hcx : x.c = nf) (hred : 0 ≤ red) (hd : ng ∣ nf) :
    shuffle_block x ng nf red =
      some (x,
        [Op.regularBlock,
         Op.pwConv x.c ng (pyIntQ (red * (nf : ℚ))).toNat,
         Op.shuffle (ng * grp_out_filters (pyIntQ (red * (nf : ℚ))).toNat ng) ng,
         Op.pwConv (ng * grp_out_filters (pyIntQ (red * (nf : ℚ))).toNat ng) ng nf]) := by
  have hrf : ¬ pyIntQ (red * (nf : ℚ)) < 0 :=
    not_lt.2 (pyIntQ_nonneg _ (mul_nonneg hred (Nat.cast_nonneg _)))
  have h1 : pw_group_conv x ng (pyIntQ (red * (nf : ℚ))).toNat =
      some (⟨x.h, x.w, ng * grp_out_filters (pyIntQ (red * (nf : ℚ))).toNat ng⟩,
       [Op.pwConv x.c ng (pyIntQ (red * (nf : ℚ))).toNat]) :=
    pw_group_conv_eq x ng _ hg
  have h2 : channel_shuffle (reLU ⟨x.h, x.w,
        ng * grp_out_filters (pyIntQ (red * (nf : ℚ))).toNat ng⟩) ng =
      some (⟨x.h, x.w, ng * grp_out_filters (pyIntQ (red * (nf : ℚ))).toNat ng⟩,
       [Op.shuffle (ng * grp_out_filters (pyIntQ (red * (nf : ℚ))).toNat ng) ng]) :=
    channel_shuffle_eq _ ng hg ⟨_, rfl⟩
  have h3 : pw_group_conv (batchNormalization (depthwiseConv2dSame 3 1
        (⟨x.h, x.w, ng * grp_out_filters (pyIntQ (red * (nf : ℚ))).toNat ng⟩ : Shape)))
        ng nf =
      some (⟨ceilDiv x.h 1, ceilDiv x.w 1, nf⟩,
       [Op.pwConv (ng * grp_out_filters (pyIntQ (red * (nf : ℚ))).toNat ng) ng nf]) := by
    have h := pw_group_conv_eq (⟨ceilDiv x.h 1, ceilDiv x.w 1,
      ng * grp_out_filters (pyIntQ (red * (nf : ℚ))).toNat ng⟩ : Shape) ng nf hg
    rw [grp_out_mul_of_dvd _ _ hg hd] at h
    exact h
  have h4 : addMerge x (⟨ceilDiv x.h 1, ceilDiv x.w 1, nf⟩ : Shape) = some x := by
    have hx : (⟨ceilDiv x.h 1, ceilDiv x.w 1, nf⟩ : Shape) = x := by
      rw [ceilDiv_by_one, ceilDiv_by_one, ← hcx]
    rw [hx]
    exact broadcastShape_self x
  rw [shuffle_block, if_neg hrf]
  simp only [Option.bind_eq_bind, Option.some_bind', Option.pure_def, h1, h2, h3, h4]
  rfl

lemma shuffle_blocks_iter_eq (n : ℕ) (x : Shape) (ng nf : ℕ) (red : ℚ) (hg : 0 < ng)
    (hcx : x.c = nf) (hred : 0 ≤ red) (hd : ng ∣ nf) :
    shuffle_blocks_iter n ng nf red x =
      some (x, List.flatten (List.replicate n
        [Op.regularBlock,
         Op.pwConv x.c ng (pyIntQ (red * (nf : ℚ))).toNat,
         Op.shuffle (ng * grp_out_filters (pyIntQ (red * (nf : ℚ))).toNat ng) ng,
         Op.pwConv (ng * grp_out_filters (pyIntQ (red * (nf : ℚ))).toNat ng) ng nf])) := by
  induction n with
  | zero => rfl
  | succ m ih =>
    simp only [shuffle_blocks_iter, shuffle_block_eq x ng nf red hg hcx hred hd,
      Option.bind_eq_bind, Option.some_bind', ih, Option.pure_def,
      List.replicate_succ, List.flatten_cons]

lemma shuffle_group_eq (x : Shape) (ng nb nf : ℕ) (red : ℚ) (hg : 0 < ng)
    (hc : x.c ≤ nf) (hred : 0 ≤ red) (hd1 : ng ∣ (nf - x.c)) (hd2 : ng ∣ nf) :
    shuffle_group x ng nb nf red =
      some (⟨ceilDiv x.h 2, ceilDiv x.w 2, nf⟩,
        [Op.stridedBlock,
         Op.pwConv x.c ng (pyIntQ (red * ((nf - x.c : ℕ) : ℚ))).toNat,
         Op.shuffle (ng * grp_out_filters (pyIntQ (red * ((nf - x.c : ℕ) : ℚ))).toNat ng) ng,
         Op.pwConv (ng * grp_out_filters (pyIntQ (red * ((nf - x.c : ℕ) : ℚ))).toNat ng) ng
           (nf - x.c)] ++
        List.flatten (List.replicate (nb - 1)
          [Op.regularBlock,
           Op.pwConv nf ng (pyIntQ (red * (nf : ℚ))).toNat,
           Op.shuffle (ng * grp_out_filters (pyIntQ (red * (nf : ℚ))).toNat ng) ng,
           Op.pwConv (ng * grp_out_filters (pyIntQ (red * (nf : ℚ))).toNat ng) ng nf])) := by
  rw [shuffle_group, strided_shuffle_block_eq x ng nf red hg hc hred hd1]
  simp only [Option.bind_eq_bind, Option.some_bind']
  rw [shuffle_blocks_iter_eq (nb - 1) ⟨ceilDiv x.h 2, ceilDiv x.w 2, nf⟩ ng nf red hg rfl
    hred hd2]
  simp only [Option.some_bind', Option.pure_def]

end ShuffleNet

namespace ShuffleNet

/-- Events of the first shuffle group of the assembled network (input
56x56x24, 4 blocks, stage target 200 filters). -/
def trace1 : List Op :=
  [Op.stridedBlock, Op.pwConv 24 2 44, Op.shuffle 44 2, Op.pwConv 44 2 176,
   Op.regularBlock, Op.pwConv 200 2 50, Op.shuffle 50 2, Op.pwConv 50 2 200,
   Op.regularBlock, Op.pwConv 200 2 50, Op.shuffle 50 2, Op.pwConv 50 2 200,
   Op.regularBlock, Op.pwConv 200 2 50, Op.shuffle 50 2, Op.pwConv 50 2 200]

/-- Events of the second shuffle group (input 28x28x200, 8 blocks, stage
target 400 filters). -/
def trace2 : List Op :=
  [Op.stridedBlock, Op.pwConv 200 2 50, Op.shuffle 50 2, Op.pwConv 50 2 200,
   Op.regularBlock, Op.pwConv 400 2 100, Op.shuffle 100 2, Op.pwConv 100 2 400,
   Op.regularBlock, Op.pwConv 400 2 100, Op.shuffle 100 2, Op.pwConv 100 2 400,
   Op.regularBlock, Op.pwConv 400 2 100, Op.shuffle 100 2, Op.pwConv 100 2 400,
   Op.regularBlock, Op.pwConv 400 2 100, Op.shuffle 100 2, Op.pwConv 100 2 400,
   Op.regularBlock, Op.pwConv 400 2 100, Op.shuffle 100 2, Op.pwConv 100 2 400,
   Op.regularBlock, Op.pwConv 400 2 100, Op.shuffle 100 2, Op.pwConv 100 2 400,
   Op.regularBlock, Op.pwConv 400 2 100, Op.shuffle 100 2, Op.pwConv 100 2 400]

/-- Events of the third shuffle group (input 14x14x400, 4 blocks, stage
target 800 filters). -/
def trace3 : List Op :=
  [Op.stridedBlock, Op.pwConv 400 2 100, Op.shuffle 100 2, Op.pwConv 100 2 400,
   Op.regularBlock, Op.pwConv 800 2 200, Op.shuffle 200 2, Op.pwConv 200 2 800,
   Op.regularBlock, Op.pwConv 800 2 200, Op.shuffle 200 2, Op.pwConv 200 2 800,
   Op.regularBlock, Op.pwConv 800 2 200, Op.shuffle 200 2, Op.pwConv 200 2 800]

/-- Full construction-event trace of the assembled ShuffleNet graph. -/
def shuffleTrace : List Op := trace1 ++ trace2 ++ trace3

lemma shuffle_group_stage1 :
    shuffle_group ⟨56, 56, 24⟩ 2 4 200 reduction = some (⟨28, 28, 200⟩, trace1) := by
  rw [shuffle_group_eq ⟨56, 56, 24⟩ 2 4 200 reduction (by decide) (by decide)
    reduction_nonneg (by decide) (by decide)]
  simp only [pyIntQ_reduction_mul, Int.toNat_natCast, grp_out_filters_eq]
  decide

lemma shuffle_group_stage2 :
    shuffle_group ⟨28, 28, 200⟩ 2 8 400 reduction = some (⟨14, 14, 400⟩, trace2) := by
  rw [shuffle_group_eq ⟨28, 28, 200⟩ 2 8 400 reduction (by decide) (by decide)
    reduction_nonneg (by decide) (by decide)]
  simp only [pyIntQ_reduction_mul, Int.toNat_natCast, grp_out_filters_eq]
  decide

lemma shuffle_group_stage3 :
    shuffle_group ⟨14, 14, 400⟩ 2 4 800 reduction = some (⟨7, 7, 800⟩, trace3) := by
  rw [shuffle_group_eq ⟨14, 14, 400⟩ 2 4 800 reduction (by decide) (by decide)
    reduction_nonneg (by decide) (by decide)]
  simp only [pyIntQ_reduction_mul, Int.toNat_natCast, grp_out_filters_eq]
  decide

lemma shufflenet_out_eq : shufflenet_out = some (1000, shuffleTrace) := by
  have hstem : stem ⟨224, 224, 3⟩ = ⟨56, 56, 24⟩ := rfl
  have hb0 : blocks[(0 : ℕ)]? = some 4 := rfl
  have hb1 : blocks[(1 : ℕ)]? = some 8 := rfl
  have hb2 : blocks[(2 : ℕ)]? = some 4 := rfl
  have hf : filters 2 = some [24, 200, 400, 800] := rfl
  have ht0 : ([24, 200, 400, 800] : List ℕ)[(0 : ℕ) + 1]? = some 200 := rfl
  have ht1 : ([24, 200, 400, 800] : List ℕ)[(1 : ℕ) + 1]? = some 400 := rfl
  have ht2 : ([24, 200, 400, 800] : List ℕ)[(2 : ℕ) + 1]? = some 800 := rfl
  have s0 : shuffle_stage 0 (stem ⟨224, 224, 3⟩, []) = some (⟨28, 28, 200⟩, trace1) := by
    simp only [shuffle_stage, hb0, hf, ht0, hstem, n_groups, shuffle_group_stage1,
      Option.bind_eq_bind, Option.some_bind', Option.pure_def, List.nil_append]
  have s1 : shuffle_stage 1 ((⟨28, 28, 200⟩ : Shape), trace1) =
      some (⟨14, 14, 400⟩, trace1 ++ trace2) := by
    simp only [shuffle_stage, hb1, hf, ht1, n_groups, shuffle_group_stage2,
      Option.bind_eq_bind, Option.some_bind', Option.pure_def]
  have s2 : shuffle_stage 2 ((⟨14, 14, 400⟩ : Shape), trace1 ++ trace2) =
      some (⟨7, 7, 800⟩, trace1 ++ trace2 ++ trace3) := by
    simp only [shuffle_stage, hb2, hf, ht2, n_groups, shuffle_group_stage3,
      Option.bind_eq_bind, Option.some_bind', Option.pure_def]
  simp only [shufflenet_out, s0, s1, s2, Option.bind_eq_bind, Option.some_bind',
    Option.pure_def, shuffleTrace]
  rfl

end ShuffleNet

namespace ShuffleNet

lemma channel_shuffleV_apply {α : Type} (v : ℕ → α) (n ng i : ℕ) :
    channel_shuffleV v n ng i = v ((i % ng) * (n / ng) + i / ng) := rfl

lemma specShufflePerm_lt (a b i : ℕ) (ha : 0 < a) (hb : 0 < b) (hi : i < a * b) :
    specShufflePerm a b i < a * b := by
  have h1 : i % a < a := Nat.mod_lt _ ha
  have h2 : i / a < b := by
    rw [Nat.div_lt_iff_lt_mul ha]
    calc i < a * b := hi
      _ = b * a := Nat.mul_comm a b
  unfold specShufflePerm
  calc (i % a) * b + i / a < (i % a) * b + b := by omega
    _ = (i % a + 1) * b := by ring
    _ ≤ a * b := Nat.mul_le_mul_right b (by omega)

lemma specShufflePerm_inv (a b i : ℕ) (ha : 0 < a) (hb : 0 < b) (hi : i < a * b) :
    specShufflePerm a b (specShufflePerm b a i) = i := by
  have hib : i / b < a := by
    rw [Nat.div_lt_iff_lt_mul hb]
    exact hi
  unfold specShufflePerm
  have hmod : (i % b * a + i / b) % a = i / b := by
    rw [Nat.mul_comm (i % b) a, Nat.mul_add_mod]
    exact Nat.mod_eq_of_lt hib
  have hdiv : (i % b * a + i / b) / a = i % b := by
    rw [Nat.mul_comm (i % b) a, Nat.mul_add_div ha, Nat.div_eq_of_lt hib, Nat.add_zero]
  rw [hmod, hdiv]
  calc i / b * b + i % b = b * (i / b) + i % b := by ring
    _ = i := Nat.div_add_mod i b

/-- Invariant checked at every recorded ShuffleNet invocation: a pointwise
group convolution receives an even channel count, drops no input channels
(the group count divides the input channel count), and its concatenated
output has exactly the requested filter count (the rounded per-group count
is exact); a channel shuffle receives an even channel count. -/
def okEvent : Op → Prop
  | Op.pwConv inC ng nf =>
      2 ∣ inC ∧ ng * (inC / ng) = inC ∧ ng * grp_out_filters nf ng = nf
  | Op.shuffle inC _ => 2 ∣ inC
  | _ => True

/-- Executable version of okEvent, with the per-group output count already
rewritten into natural-number arithmetic. -/
def okCheck : Op → Bool
  | Op.pwConv inC ng nf =>
      decide (2 ∣ inC) && (ng * (inC / ng) == inC)
        && (ng * ((2 * nf + ng) / (2 * ng)) == nf)
  | Op.shuffle inC _ => decide (2 ∣ inC)
  | _ => true

lemma okEvent_iff (ev : Op) : okEvent ev ↔ okCheck ev = true := by
  cases ev <;> simp [okEvent, okCheck, grp_out_filters_eq, and_assoc]

end ShuffleNet

/-- C1: for every input of shape (batch, 224, 224, 3), both fully assembled
networks produce an output of shape (batch, 1000), and each output row is
softmax normalized, summing to 1 (for any positive exponential and any
classifier weights of the configured 1000 classes). -/
theorem claim_C1 :
    Option.map Prod.fst SeResNet50.se_resnet50_out = some 1000 ∧
    Option.map Prod.fst ShuffleNet.shufflenet_out = some 1000 ∧
    ∀ (e : ℚ → ℚ) (w : List (List ℚ)) (b : List ℚ) (fm : List (List ℚ)),
      (∀ z, 0 < e z) → w.length = 1000 → b.length = 1000 →
      (classifierV e w b fm).length = 1000 ∧ (classifierV e w b fm).sum = 1 := by
  refine ⟨by decide, ?_, ?_⟩
  · rw [ShuffleNet.shufflenet_out_eq]
    rfl
  · intro e w b fm he hw hb
    have hlen : (denseLayerV w b (globalAvgPoolV fm)).length = 1000 := by
      rw [denseLayerV, List.length_zipWith, hw, hb]
      exact Nat.min_self 1000
    constructor
    · rw [classifierV, softmax, List.length_map, hlen]
    · refine softmax_sum e _ he ?_
      intro hnil
      rw [hnil] at hlen
      simp at hlen

/-- Witness for C1 at a concrete positive exponential, 1000 zero weight
rows, 1000 zero biases and an empty feature map. -/
theorem claim_C1_witness :
    (classifierV (fun _ => 1) (List.replicate 1000 []) (List.replicate 1000 0) []).length
        = 1000 ∧
    (classifierV (fun _ => 1) (List.replicate 1000 []) (List.replicate 1000 0) []).sum
        = 1 :=
  claim_C1.2.2 (fun _ => 1) (List.replicate 1000 []) (List.replicate 1000 0) []
    (fun _ => one_pos) (List.length_replicate 1000 []) (List.length_replicate 1000 0)

/-- C2: for a channel count n_groups * k divisible by n_groups, the channel
shuffle acts on channel indices as the explicit bijection of the
specification: output position j * n_groups + g reads input channel
g * k + j; the index map is a bijection of the index range, and the
shape-level layer preserves the tensor shape. -/
theorem claim_C2 : ∀ (α : Type) (ng k : ℕ) (v : ℕ → α), 0 < ng → 0 < k →
    (∀ i, i < ng * k →
      ShuffleNet.channel_shuffleV v (ng * k) ng i = v (ShuffleNet.specShufflePerm ng k i))
    ∧ (∀ g j, g < ng → j < k →
      ShuffleNet.channel_shuffleV v (ng * k) ng (j * ng + g) = v (g * k + j))
    ∧ Set.BijOn (ShuffleNet.specShufflePerm ng k) (Set.Iio (ng * k)) (Set.Iio (ng * k))
    ∧ (∀ hh ww : ℕ, ShuffleNet.channel_shuffle ⟨hh, ww, ng * k⟩ ng =
      some (⟨hh, ww, ng * k⟩, [ShuffleNet.Op.shuffle (ng * k) ng])) := by
  intro α ng k v hg hk
  have hnk : ng * k / ng = k := Nat.mul_div_cancel_left k hg
  refine ⟨?_, ?_, ⟨?_, ?_, ?_⟩, ?_⟩
  · intro i _
    rw [ShuffleNet.channel_shuffleV_apply, hnk]
    rfl
  · intro g j hgng hjk
    rw [ShuffleNet.channel_shuffleV_apply, hnk]
    have hm : (j * ng + g) % ng = g := by
      rw [Nat.mul_comm j ng, Nat.mul_add_mod]
      exact Nat.mod_eq_of_lt hgng
    have hdv : (j * ng + g) / ng = j := by
      rw [Nat.mul_comm j ng, Nat.mul_add_div hg, Nat.div_eq_of_lt hgng, Nat.add_zero]
    rw [hm, hdv]
  · intro i hi
    simp only [Set.mem_Iio] at hi ⊢
    exact ShuffleNet.specShufflePerm_lt ng k i hg hk hi
  · intro i hi j hj hij
    simp only [Set.mem_Iio] at hi hj
    have h1 : ShuffleNet.specShufflePerm k ng (ShuffleNet.specShufflePerm ng k i) = i :=
      ShuffleNet.specShufflePerm_inv k ng i hk hg (by rw [Nat.mul_comm]; exact hi)
    have h2 : ShuffleNet.specShufflePerm k ng (ShuffleNet.specShufflePerm ng k j) = j :=
      ShuffleNet.specShufflePerm_inv k ng j hk hg (by rw [Nat.mul_comm]; exact hj)
    rw [← h1, ← h2, hij]
  · intro y hy
    simp only [Set.mem_Iio] at hy
    refine ⟨ShuffleNet.specShufflePerm k ng y, ?_, ?_⟩
    · simp only [Set.mem_Iio]
      calc ShuffleNet.specShufflePerm k ng y < k * ng :=
            ShuffleNet.specShufflePerm_lt k ng y hk hg (by rw [Nat.mul_comm]; exact hy)
        _ = ng * k := Nat.mul_comm k ng
    · exact ShuffleNet.specShufflePerm_inv ng k y hg hk hy
  · intro hh ww
    exact ShuffleNet.channel_shuffle_eq ⟨hh, ww, ng * k⟩ ng hg ⟨k, rfl⟩

/-- Witness for C2 with 2 groups of 3 channels: output position 2 reads
input channel 1, and the spec permutation is a bijection of the range. -/
theorem claim_C2_witness :
    ShuffleNet.channel_shuffleV (fun i : ℕ => i) (2 * 3) 2 (1 * 2 + 0) = 0 * 3 + 1 ∧
    Set.BijOn (ShuffleNet.specShufflePerm 2 3) (Set.Iio (2 * 3)) (Set.Iio (2 * 3)) := by
  have h := claim_C2 ℕ 2 3 (fun i => i) (by decide) (by decide)
  exact ⟨h.2.1 0 1 (by decide) (by decide), h.2.2.1⟩

/-- Counterexample to C3 as stated: on 6 channels, applying the channel
shuffle twice with group count 2 moves channel 1 (a double shuffle with the
same group count is not the identity). -/
theorem claim_C3_counterexample :
    ShuffleNet.channel_shuffleV (ShuffleNet.channel_shuffleV (fun i : ℕ => i) 6 2) 6 2 1 ≠
      (fun i : ℕ => i) 1 := by
  decide

/-- C3 as amended: applying channel shuffle with 2 groups and then channel
shuffle with n_filters / 2 groups is the identity on channel indices; the
two applications only coincide for n_filters = 4, so the double shuffle
with the same group count 2 is not an involution in general. -/
theorem claim_C3 : ∀ (α : Type) (k : ℕ) (v : ℕ → α) (i : ℕ), 0 < k → i < 2 * k →
    ShuffleNet.channel_shuffleV (ShuffleNet.channel_shuffleV v (2 * k) 2) (2 * k) k i
      = v i := by
  intro α k v i hk hi
  rw [ShuffleNet.channel_shuffleV_apply, ShuffleNet.channel_shuffleV_apply]
  have h1 : 2 * k / k = 2 := Nat.mul_div_cancel 2 hk
  have h2 : 2 * k / 2 = k := by omega
  rw [h1, h2]
  exact congrArg v (ShuffleNet.specShufflePerm_inv 2 k i (by omega) hk hi)

/-- Witness for the amended C3 on 6 channels at index 1. -/
theorem claim_C3_witness :
    ShuffleNet.channel_shuffleV
      (ShuffleNet.channel_shuffleV (fun i : ℕ => i) (2 * 3) 2) (2 * 3) 3 1 = 1 :=
  claim_C3 ℕ 3 (fun i => i) 1 (by decide) (by decide)

/-- C4: for a channel count divisible by the (positive) reduction ratio,
the squeeze path produces exactly c / ratio channels (the division being
exact), and the squeeze-excite block's output shape equals its input
shape. -/
theorem claim_C4 : ∀ (x : Shape) (ratio : ℕ), 0 < ratio → ratio ∣ x.c →
    (SeResNet50.se_reduce x ratio = some ⟨1, 1, x.c / ratio⟩ ∧
      x.c / ratio * ratio = x.c)
    ∧ SeResNet50.squeeze_excite_block x ratio = some (x, [SeResNet50.Op.se x.c]) := by
  intro x r hr hd
  exact ⟨⟨SeResNet50.se_reduce_eq x r hr.ne', Nat.div_mul_cancel hd⟩,
    SeResNet50.squeeze_excite_block_eq x r hr.ne'⟩

/-- Witness for C4 on a 7x7x32 input with ratio 16. -/
theorem claim_C4_witness :
    SeResNet50.se_reduce ⟨7, 7, 32⟩ 16 = some ⟨1, 1, 2⟩ ∧
    SeResNet50.squeeze_excite_block ⟨7, 7, 32⟩ 16 =
      some (⟨7, 7, 32⟩, [SeResNet50.Op.se 32]) := by
  have h := claim_C4 ⟨7, 7, 32⟩ 16 (by decide) (by decide)
  exact ⟨h.1.1, h.2⟩

/-- C5: the projection block outputs exactly 4 * n_filters channels; the
strided shuffle block outputs exactly the stage target filter count (the
entry count adjustment and group rounding being exact under the stated
divisibility); the bottleneck block and the regular shuffle block preserve
their input shape when the input channel count matches what the identity
add requires. -/
theorem claim_C5 :
    (∀ (nf s r : ℕ) (x : Shape), 0 < s → 0 < r → 1 ≤ x.h → 1 ≤ x.w →
      ∃ y t, SeResNet50.projection_block nf x s r = some (y, t) ∧ y.c = 4 * nf)
    ∧ (∀ (ng nf : ℕ) (x : Shape) (red : ℚ), 0 < ng → x.c ≤ nf → 0 ≤ red →
        ng ∣ (nf - x.c) →
      ∃ y t, ShuffleNet.strided_shuffle_block x ng nf red = some (y, t) ∧ y.c = nf)
    ∧ (∀ (nf r : ℕ) (x : Shape), 0 < r → 1 ≤ x.h → 1 ≤ x.w → x.c = nf * 4 →
      ∃ t, SeResNet50.bottleneck_block nf x r = some (x, t))
    ∧ (∀ (ng nf : ℕ) (x : Shape) (red : ℚ), 0 < ng → x.c = nf → 0 ≤ red → ng ∣ nf →
      ∃ t, ShuffleNet.shuffle_block x ng nf red = some (x, t)) := by
  refine ⟨?_, ?_, ?_, ?_⟩
  · intro nf s r x hs hr hh hw
    exact ⟨_, _, SeResNet50.projection_block_eq nf x s r hs hr.ne' hh hw, rfl⟩
  · intro ng nf x red hg hc hred hd
    exact ⟨_, _, ShuffleNet.strided_shuffle_block_eq x ng nf red hg hc hred hd, rfl⟩
  · intro nf r x hr hh hw hcx
    exact ⟨_, SeResNet50.bottleneck_block_eq nf x r hr.ne' hh hw hcx⟩
  · intro ng nf x red hg hcx hred hd
    exact ⟨_, ShuffleNet.shuffle_block_eq x ng nf red hg hcx hred hd⟩

/-- Witness for C5 at the four block invocations of the assembled
networks' first stages. -/
theorem claim_C5_witness :
    (∃ y t, SeResNet50.projection_block 64 ⟨56, 56, 64⟩ 1 16 = some (y, t) ∧
      y.c = 4 * 64)
    ∧ (∃ y t, ShuffleNet.strided_shuffle_block ⟨56, 56, 24⟩ 2 200 (1 / 4 : ℚ) =
        some (y, t) ∧ y.c = 200)
    ∧ (∃ t, SeResNet50.bottleneck_block 64 ⟨56, 56, 256⟩ 16 = some (⟨56, 56, 256⟩, t))
    ∧ (∃ t, ShuffleNet.shuffle_block ⟨28, 28, 200⟩ 2 200 (1 / 4 : ℚ) =
        some (⟨28, 28, 200⟩, t)) :=
  ⟨claim_C5.1 64 1 16 ⟨56, 56, 64⟩ (by decide) (by decide) (by decide) (by decide),
   claim_C5.2.1 2 200 ⟨56, 56, 24⟩ (1 / 4) (by decide) (by decide) (by norm_num)
     (by decide),
   claim_C5.2.2.1 64 16 ⟨56, 56, 256⟩ (by decide) (by decide) (by decide) (by decide),
   claim_C5.2.2.2 2 200 ⟨28, 28, 200⟩ (1 / 4) (by decide) (by decide) (by norm_num)
     (by decide)⟩

/-- C6: each stage assembler emits exactly n_blocks blocks, one
shape-changing block (projection, or strided shuffle) followed by
n_blocks - 1 identity blocks (bottleneck, or regular shuffle), in that
order. -/
theorem claim_C6 :
    (∀ (nf nb s r : ℕ) (x : Shape), 0 < s → 0 < r → 1 ≤ x.h → 1 ≤ x.w → 1 ≤ nb →
      ∃ y t, SeResNet50.se_stage nf nb s r x = some (y, t) ∧
        t.filter SeResNet50.isBlock =
          SeResNet50.Op.projBlock :: List.replicate (nb - 1) SeResNet50.Op.bottleBlock)
    ∧ (∀ (ng nb nf : ℕ) (x : Shape) (red : ℚ), 0 < ng → x.c ≤ nf → 0 ≤ red →
        ng ∣ (nf - x.c) → ng ∣ nf → 1 ≤ nb →
      ∃ y t, ShuffleNet.shuffle_group x ng nb nf red = some (y, t) ∧
        t.filter ShuffleNet.isBlock =
          ShuffleNet.Op.stridedBlock ::
            List.replicate (nb - 1) ShuffleNet.Op.regularBlock) := by
  constructor
  · intro nf nb s r x hs hr hh hw hnb
    refine ⟨_, _, SeResNet50.se_stage_eq nf nb s r x hs hr.ne' hh hw, ?_⟩
    rw [List.filter_cons_of_pos (by rfl), List.filter_cons_of_neg (by simp [SeResNet50.isBlock]),
      filter_join_replicate SeResNet50.isBlock (nb - 1)
        [SeResNet50.Op.bottleBlock, SeResNet50.Op.se (nf * 4)] SeResNet50.Op.bottleBlock rfl]
  · intro ng nb nf x red hg hc hred hd1 hd2 hnb
    refine ⟨_, _, ShuffleNet.shuffle_group_eq x ng nb nf red hg hc hred hd1 hd2, ?_⟩
    rw [List.filter_append,
      filter_join_replicate ShuffleNet.isBlock (nb - 1)
        [ShuffleNet.Op.regularBlock,
         ShuffleNet.Op.pwConv nf ng (pyIntQ (red * (nf : ℚ))).toNat,
         ShuffleNet.Op.shuffle
           (ng * ShuffleNet.grp_out_filters (pyIntQ (red * (nf : ℚ))).toNat ng) ng,
         ShuffleNet.Op.pwConv
           (ng * ShuffleNet.grp_out_filters (pyIntQ (red * (nf : ℚ))).toNat ng) ng nf]
        ShuffleNet.Op.regularBlock rfl]
    rfl

/-- Witness for C6 at the first stage of each assembled network. -/
theorem claim_C6_witness :
    (∃ y t, SeResNet50.se_stage 64 3 1 16 ⟨56, 56, 64⟩ = some (y, t) ∧
      t.filter SeResNet50.isBlock =
        SeResNet50.Op.projBlock :: List.replicate 2 SeResNet50.Op.bottleBlock)
    ∧ (∃ y t, ShuffleNet.shuffle_group ⟨56, 56, 24⟩ 2 4 200 (1 / 4 : ℚ) = some (y, t) ∧
      t.filter ShuffleNet.isBlock =
        ShuffleNet.Op.stridedBlock :: List.replicate 3 ShuffleNet.Op.regularBlock) :=
  ⟨claim_C6.1 64 3 1 16 ⟨56, 56, 64⟩ (by decide) (by decide) (by decide) (by decide)
     (by decide),
   claim_C6.2 2 4 200 ⟨56, 56, 24⟩ (1 / 4) (by decide) (by decide) (by norm_num)
     (by decide) (by decide) (by decide)⟩

/-- C7: with one group, the pointwise group convolution degenerates to the
ordinary dense pointwise convolution followed by batch normalization: the
single slice covers all input channels, the per-group output count
int(n_filters / 1 + 0.5) equals n_filters, the values agree for the same
weights, and the built shape is that of a dense 1x1 convolution. -/
theorem claim_C7 : ∀ (v : List ℚ) (w : List (List ℚ)) (bn : List ℚ → List ℚ)
    (nf : ℕ) (x : Shape),
    ShuffleNet.pw_group_convV v 1 [w] bn = ShuffleNet.densePwConvV v w bn
    ∧ ShuffleNet.grp_out_filters nf 1 = nf
    ∧ ShuffleNet.sliceV v (v.length / 1 * 0) (v.length / 1 * 1) = v
    ∧ ShuffleNet.pw_group_conv x 1 nf =
        some (⟨x.h, x.w, nf⟩, [ShuffleNet.Op.pwConv x.c 1 nf]) := by
  intro v w bn nf x
  have hgo : ShuffleNet.grp_out_filters nf 1 = nf := by
    rw [ShuffleNet.grp_out_filters_eq]
    omega
  refine ⟨?_, hgo, ?_, ?_⟩
  · have hr1 : List.range 1 = [0] := rfl
    simp [ShuffleNet.pw_group_convV, ShuffleNet.densePwConvV, ShuffleNet.sliceV,
      hr1, List.getElem?_cons_zero, Option.getD_some, List.take_length,
      List.drop_zero, List.flatten_cons, List.flatten_nil, List.append_nil]
  · simp [ShuffleNet.sliceV]
  · have h := ShuffleNet.pw_group_conv_eq x 1 nf (by decide)
    rw [hgo, Nat.one_mul] at h
    exact h

/-- Counterexample to C8 as stated: with 100 input channels and ratio 16
(which does not divide 100), graph construction of the squeeze-excite block
does not fail; it succeeds and returns the input shape. -/
theorem claim_C8_counterexample :
    ¬ (16 ∣ 100) ∧
    SeResNet50.squeeze_excite_block ⟨7, 7, 100⟩ 16 =
      some (⟨7, 7, 100⟩, [SeResNet50.Op.se 100]) := by
  exact ⟨by decide, by decide⟩

/-- C8 as amended: when the (positive) reduction ratio does not divide the
input channel count, graph construction does not fail; the squeeze path
silently floors to c / ratio channels (Python floor division) and the block
builds with output shape equal to its input shape. -/
theorem claim_C8 : ∀ (x : Shape) (ratio : ℕ), 0 < ratio → ¬ ratio ∣ x.c →
    SeResNet50.squeeze_excite_block x ratio = some (x, [SeResNet50.Op.se x.c]) ∧
    SeResNet50.se_reduce x ratio = some ⟨1, 1, x.c / ratio⟩ := by
  intro x r hr _
  exact ⟨SeResNet50.squeeze_excite_block_eq x r hr.ne',
    SeResNet50.se_reduce_eq x r hr.ne'⟩

/-- Witness for the amended C8 on a 3x3x10 input with ratio 4. -/
theorem claim_C8_witness :
    SeResNet50.squeeze_excite_block ⟨3, 3, 10⟩ 4 =
      some (⟨3, 3, 10⟩, [SeResNet50.Op.se 10]) ∧
    SeResNet50.se_reduce ⟨3, 3, 10⟩ 4 = some ⟨1, 1, 2⟩ :=
  claim_C8 ⟨3, 3, 10⟩ 4 (by decide) (by decide)

/-- C9: in the fully assembled SE-ResNet50 graph, there are exactly 16
squeeze-excite invocations, every one of them receives a channel count in
{256, 512, 1024, 2048}, each divisible by the fixed ratio 16, so
filters // ratio is exact division at every call site. -/
theorem claim_C9 :
    SeResNet50.se_resnet50_out ≠ none ∧
    (SeResNet50.seChannels (SeResNet50.traceOf SeResNet50.se_resnet50_out)).length = 16 ∧
    ∀ c ∈ SeResNet50.seChannels (SeResNet50.traceOf SeResNet50.se_resnet50_out),
      (c = 256 ∨ c = 512 ∨ c = 1024 ∨ c = 2048) ∧ 16 ∣ c ∧ c / 16 * 16 = c := by
  decide

/-- C10: the fully assembled ShuffleNet graph builds, producing exactly the
64 recorded invocations; every pointwise group convolution and every
channel shuffle receives an even input channel count, no pointwise group
convolution drops input channels, and every rounded per-group output count
is exact, so each concatenated output has exactly the requested filter
count. -/
theorem claim_C10 :
    ShuffleNet.shufflenet_out = some (1000, ShuffleNet.shuffleTrace) ∧
    (∀ ev ∈ ShuffleNet.shuffleTrace, ShuffleNet.okEvent ev) ∧
    ShuffleNet.shuffleTrace.length = 64 := by
  refine ⟨ShuffleNet.shufflenet_out_eq, ?_, by decide⟩
  have h : ∀ ev ∈ ShuffleNet.shuffleTrace, ShuffleNet.okCheck ev = true := by decide
  intro ev hev
  exact (ShuffleNet.okEvent_iff ev).2 (h ev hev)
